import Mathlib

/- Formal model of the response-normalization pipeline of the resume-analyzer
service: the two service modules app/services/analyzer.py (resume-analysis
flow) and app/services/jd_matcher.py (resume-vs-job-description match flow).

Modelling conventions:
- Python values flowing through the pipeline (the results of json.loads and
  the result dictionaries) are modelled by the inductive type JValue.
- Python dicts are insertion-ordered association lists; item assignment
  updates the first matching key in place or appends a fresh key at the end,
  exactly like CPython dicts (dset below).
- Python ints are unbounded, modelled by Int.  Python floats are modelled by
  FloatVal: finite decimal literals are kept as exact rationals (IEEE-754
  rounding is not modelled; no claim depends on it) plus the special values
  nan, inf and -inf, whose behaviour under int() is what matters here.
- Fallible Python code is modelled with Except PyErr; an uncaught exception
  in the source corresponds to the .error case.
- The external Gemini call (model.generate_content plus the response.text
  access) is abstracted as an Except String String outcome parameter:
  .ok text is the raw response text, .error msg a raised provider exception
  with message msg.  Whether the call happened at all is returned as an
  explicit Bool flag by the two top-level flow functions. -/

namespace ResumeAPI

/-- Value of a Python float: a finite value kept as an exact rational, or one
of the special values NaN, +inf, -inf. -/
inductive FloatVal where
  | fin (q : ℚ)
  | nan
  | inf
  | ninf
deriving DecidableEq

/-- Python value produced by json.loads and manipulated by the two service
modules: None, bool, int, float, str, list, dict (insertion-ordered). -/
inductive JValue where
  | null
  | bool (b : Bool)
  | int (n : Int)
  | float (f : FloatVal)
  | str (s : String)
  | arr (elems : List JValue)
  | obj (entries : List (String × JValue))

/-- Lookup in a Python dict (first occurrence of the key). -/
def dget : List (String × JValue) → String → Option JValue
  | [], _ => none
  | (k, v) :: rest, key => if k = key then some v else dget rest key

/-- Item assignment on a Python dict: update the existing key in place (the
position of the key is preserved) or append a fresh key at the end. -/
def dset : List (String × JValue) → String → JValue → List (String × JValue)
  | [], key, v => [(key, v)]
  | (k, w) :: rest, key, v =>
    if k = key then (k, v) :: rest else (k, w) :: dset rest key v

/-- Key membership test on a Python dict. -/
def dmem (kvs : List (String × JValue)) (key : String) : Bool :=
  (dget kvs key).isSome

/-- Left brace character, written via its code point. -/
def lbrace : Char := Char.ofNat 123

/-- Right brace character, written via its code point. -/
def rbrace : Char := Char.ofNat 125

/-- Single-quote character as a one-character string. -/
def sq : String := String.singleton (Char.ofNat 39)

/-- JSON whitespace (the exact set accepted by json.loads between tokens). -/
def isWsJson (c : Char) : Bool :=
  c = ' ' || c = '\t' || c = '\n' || c = '\r'

/-- Python str.strip default whitespace and the regex class \s
(ASCII part: space, tab, newline, carriage return, vertical tab, form feed). -/
def isWsPy (c : Char) : Bool :=
  isWsJson c || c = Char.ofNat 11 || c = Char.ofNat 12

/-- ASCII digit test (the regex class \d). -/
def isDigitC (c : Char) : Bool :=
  '0' ≤ c && c ≤ '9'

/-- Word character (the regex class \w, ASCII part). -/
def isWordC (c : Char) : Bool :=
  c.isAlpha || isDigitC c || c = '_'

/-- Python str.strip(): drop leading and trailing whitespace. -/
def stripL (cs : List Char) : List Char :=
  ((cs.dropWhile isWsPy).reverse.dropWhile isWsPy).reverse

/-- Numeric value of a list of ASCII digits. -/
def digitsVal (ds : List Char) : Nat :=
  ds.foldl (fun a c => a * 10 + (c.toNat - 48)) 0

/-- Value of a hexadecimal digit, if any. -/
def hexVal (c : Char) : Option Nat :=
  if isDigitC c then some (c.toNat - 48)
  else if 'a' ≤ c && c ≤ 'f' then some (c.toNat - 87)
  else if 'A' ≤ c && c ≤ 'F' then some (c.toNat - 55)
  else none

/-- Skip JSON whitespace. -/
def skipWsJ (cs : List Char) : List Char :=
  cs.dropWhile isWsJson

/-- Scan of a JSON string body (after the opening quote), accumulating
decoded characters; returns the decoded characters and the rest of the input
after the closing quote.  json.loads in strict mode rejects raw control
characters inside strings; \uXXXX escapes are decoded as single code points
(surrogate pairing is not modelled; no claim depends on it). -/
def parseJStringAux : Nat → List Char → List Char → Option (List Char × List Char)
  | 0, _, _ => none
  | Nat.succ fuel, acc, cs =>
    match cs with
    | [] => none
    | c :: rest =>
      if c = '"' then some (acc.reverse, rest)
      else if c = '\\' then
        match rest with
        | [] => none
        | e :: rest2 =>
          if e = '"' then parseJStringAux fuel ('"' :: acc) rest2
          else if e = '\\' then parseJStringAux fuel ('\\' :: acc) rest2
          else if e = '/' then parseJStringAux fuel ('/' :: acc) rest2
          else if e = 'b' then parseJStringAux fuel (Char.ofNat 8 :: acc) rest2
          else if e = 'f' then parseJStringAux fuel (Char.ofNat 12 :: acc) rest2
          else if e = 'n' then parseJStringAux fuel ('\n' :: acc) rest2
          else if e = 'r' then parseJStringAux fuel ('\r' :: acc) rest2
          else if e = 't' then parseJStringAux fuel ('\t' :: acc) rest2
          else if e = 'u' then
            match rest2 with
            | h1 :: h2 :: h3 :: h4 :: rest3 =>
              match hexVal h1, hexVal h2, hexVal h3, hexVal h4 with
              | some a, some b, some c2, some d =>
                parseJStringAux fuel
                  (Char.ofNat (((a * 16 + b) * 16 + c2) * 16 + d) :: acc) rest3
              | _, _, _, _ => none
            | _ => none
          else none
      else if c.toNat < 32 then none
      else parseJStringAux fuel (c :: acc) rest

/-- Scan of a JSON number (int / frac / exp per RFC 8259, as accepted by
json.loads): leading zeros are rejected, a number with a fraction or an
exponent becomes a Python float, otherwise a Python int. -/
def parseJNumber (cs : List Char) : Option (JValue × List Char) :=
  let signed := match cs with
    | c :: t => if c = '-' then (true, t) else (false, cs)
    | [] => (false, cs)
  let neg := signed.1
  let cs1 := signed.2
  match cs1 with
  | [] => none
  | d :: _ =>
    if ¬ isDigitC d then none
    else
      let ip := cs1.takeWhile isDigitC
      let rest1 := cs1.dropWhile isDigitC
      if ip.length > 1 ∧ ip.headD '0' = '0' then none
      else
        let fracPart : Option (List Char × List Char) :=
          match rest1 with
          | '.' :: r =>
            let fd := r.takeWhile isDigitC
            if fd = [] then none else some (fd, r.dropWhile isDigitC)
          | _ => some ([], rest1)
        match fracPart with
        | none => none
        | some (fd, rest2) =>
          let expPart : Option (Int × List Char) :=
            match rest2 with
            | e :: r =>
              if e = 'e' ∨ e = 'E' then
                let esigned := match r with
                  | s :: t =>
                    if s = '-' then (true, t)
                    else if s = '+' then (false, t)
                    else (false, r)
                  | [] => (false, r)
                let ed := esigned.2.takeWhile isDigitC
                if ed = [] then none
                else
                  some (if esigned.1 then -(digitsVal ed : Int) else (digitsVal ed : Int),
                        esigned.2.dropWhile isDigitC)
              else some (0, rest2)
            | [] => some (0, rest2)
          match expPart with
          | none => none
          | some (ex, rest3) =>
            let isFloat := fd ≠ [] ∨ (rest2 ≠ rest3)
            let mant : Int := (digitsVal (ip ++ fd) : Int)
            let mant := if neg then -mant else mant
            if isFloat then
              let q : ℚ := (mant : ℚ) * (10 : ℚ) ^ (ex - (fd.length : Int))
              some (.float (.fin q), rest3)
            else
              some (.int mant, rest3)

/-- Parse loop for the members of a JSON object, taking the value scanner and
the string scanner as parameters; entries are assembled with dset, so that a
duplicate key keeps its first position and its last value, exactly like the
dict built by json.loads. -/
def objLoop (pv : List Char → Option (JValue × List Char))
    (ps : List Char → Option (List Char × List Char)) :
    Nat → List Char → List (String × JValue) → Option (JValue × List Char)
  | 0, _, _ => none
  | Nat.succ fuel, cs, acc =>
    match cs with
    | [] => none
    | c :: rest =>
      if c = '"' then
        match ps rest with
        | none => none
        | some (key, rest1) =>
          match skipWsJ rest1 with
          | ':' :: rest2 =>
            match pv (skipWsJ rest2) with
            | none => none
            | some (v, rest3) =>
              let acc2 := dset acc (String.mk key) v
              match skipWsJ rest3 with
              | ',' :: rest4 => objLoop pv ps fuel (skipWsJ rest4) acc2
              | cend :: rest5 =>
                if cend = rbrace then some (.obj acc2, rest5) else none
              | [] => none
          | _ => none
      else none

/-- Parse loop for the elements of a JSON array. -/
def arrLoop (pv : List Char → Option (JValue × List Char)) :
    Nat → List Char → List JValue → Option (JValue × List Char)
  | 0, _, _ => none
  | Nat.succ fuel, cs, acc =>
    match pv cs with
    | none => none
    | some (v, rest) =>
      match skipWsJ rest with
      | ',' :: rest2 => arrLoop pv fuel (skipWsJ rest2) (v :: acc)
      | ']' :: rest2 => some (.arr (v :: acc).reverse, rest2)
      | _ => none

/-- Scan of a single JSON value (json.loads grammar, including the Python
extensions NaN, Infinity and -Infinity). -/
def parseJVal : Nat → List Char → Option (JValue × List Char)
  | 0, _ => none
  | Nat.succ fuel, cs =>
    match cs with
    | [] => none
    | c :: rest =>
      if c = '"' then
        match parseJStringAux (cs.length + 1) [] rest with
        | some (s, rest1) => some (.str (String.mk s), rest1)
        | none => none
      else if c = lbrace then
        match skipWsJ rest with
        | d :: rest1 =>
          if d = rbrace then some (.obj [], rest1)
          else objLoop (parseJVal fuel)
            (fun l => (parseJStringAux (l.length + 1) [] l)) fuel (skipWsJ rest) []
        | [] => none
      else if c = '[' then
        match skipWsJ rest with
        | ']' :: rest1 => some (.arr [], rest1)
        | _ => arrLoop (parseJVal fuel) fuel (skipWsJ rest) []
      else if "null".toList.isPrefixOf cs then some (.null, cs.drop 4)
      else if "true".toList.isPrefixOf cs then some (.bool true, cs.drop 4)
      else if "false".toList.isPrefixOf cs then some (.bool false, cs.drop 5)
      else if "NaN".toList.isPrefixOf cs then some (.float .nan, cs.drop 3)
      else if "Infinity".toList.isPrefixOf cs then some (.float .inf, cs.drop 8)
      else if "-Infinity".toList.isPrefixOf cs then some (.float .ninf, cs.drop 9)
      else parseJNumber cs

/-- Model of json.loads: scan one value surrounded by optional whitespace;
any other input raises json.JSONDecodeError, modelled as none. -/
def jsonParse (cs : List Char) : Option JValue :=
  match parseJVal (cs.length + 1) (skipWsJ cs) with
  | some (v, rest) => if skipWsJ rest = [] then some v else none
  | none => none

/-- Attempt a scanner at every position of the input from left to right and
return the first hit: the search strategy of re.search / re.findall. -/
def searchAt {α : Type} (att : List Char → Option α) : List Char → Option α
  | [] => att []
  | c :: t =>
    match att (c :: t) with
    | some r => some r
    | none => searchAt att t

/-- Case-insensitive prefix test (ASCII case folding, re.IGNORECASE). -/
def isPrefixCI : List Char → List Char → Bool
  | [], _ => true
  | _ :: _, [] => false
  | a :: as, b :: bs => (a.toLower = b.toLower) && isPrefixCI as bs

/-- Python substring containment: needle in hay. -/
def containsSub (hay needle : List Char) : Bool :=
  (searchAt (fun cs => if needle.isPrefixOf cs then some () else none) hay).isSome

/-- Matcher for the regex tail "\s*```": some whitespace followed by a triple
backtick fence. -/
def tailMatchesFence : List Char → Bool
  | [] => false
  | c :: t =>
    if "```".toList.isPrefixOf (c :: t) then true
    else if isWsPy c then tailMatchesFence t
    else false

/-- Lazy scan for the group of the analyzer fence regex
"```json\s*([\s\S]*?)\s*```": the shortest (possibly empty) run of characters
whose remainder matches "\s*```". -/
def findGroupB : List Char → List Char → Option (List Char)
  | _, [] => none
  | acc, c :: t =>
    if tailMatchesFence (c :: t) then some acc.reverse
    else findGroupB (c :: acc) t

/-- Attempt of the analyzer fence regex at one position: the literal
"```json", then the (greedy) whitespace run, then the lazy group. -/
def fenceAttemptB (cs : List Char) : Option (List Char) :=
  if "```json".toList.isPrefixOf cs then
    findGroupB [] ((cs.drop 7).dropWhile isWsPy)
  else none

/-- Model of re.search for the analyzer fence regex of
analyzer.parse-step (analyzer.py line 102); returns group(1). -/
def fenceSearchB (cs : List Char) : Option (List Char) :=
  searchAt fenceAttemptB cs

/-- Lazy scan for the group of the jd_matcher fence regex
"```json\s*({.+?})\s*```" after the opening brace: the shortest run of at
least one character, then a closing brace whose remainder matches "\s*```".
The accumulator holds the (reversed) interior characters consumed so far. -/
def findGroupA : List Char → List Char → Option (List Char)
  | _, [] => none
  | acc, c :: t =>
    if (!acc.isEmpty) && (c = rbrace) && tailMatchesFence t then
      some (lbrace :: (acc.reverse ++ [rbrace]))
    else findGroupA (c :: acc) t

/-- Attempt of the jd_matcher fence regex at one position. -/
def fenceAttemptA (cs : List Char) : Option (List Char) :=
  if "```json".toList.isPrefixOf cs then
    match (cs.drop 7).dropWhile isWsPy with
    | b :: t => if b = lbrace then findGroupA [] t else none
    | [] => none
  else none

/-- Model of re.search for the jd_matcher fence regex
(jd_matcher.py line 134); returns group(1). -/
def fenceSearchA (cs : List Char) : Option (List Char) :=
  searchAt fenceAttemptA cs

/-- True when the text starts with a left brace (str.startswith). -/
def startsWithBrace (cs : List Char) : Bool :=
  match cs with
  | c :: _ => c = lbrace
  | [] => false

/-- True when the text ends with a right brace (str.endswith). -/
def endsWithBrace (cs : List Char) : Bool :=
  match cs.getLast? with
  | some c => c = rbrace
  | none => false

/-- Slice between the first left brace and the last right brace, inclusive
(str.find / str.rfind followed by s[start:end+1]); the text is returned
unchanged when either brace is missing. -/
def braceSlice (cs : List Char) : List Char :=
  match cs.findIdx? (fun c => c = lbrace), cs.reverse.findIdx? (fun c => c = rbrace) with
  | some i, some rj => (cs.drop i).take (cs.length - rj - i)
  | _, _ => cs

/-- Split on a single newline character (str.split of a one-char separator). -/
def splitNl : List Char → List Char → List (List Char)
  | acc, [] => [acc.reverse]
  | acc, c :: t =>
    if c = '\n' then acc.reverse :: splitNl [] t else splitNl (c :: acc) t

/-- Split on a multi-character separator, left to right, non-overlapping
(Python str.split semantics). -/
def splitOnSepAux (sep : List Char) : Nat → List Char → List Char → List (List Char)
  | 0, acc, cs => [acc.reverse ++ cs]
  | Nat.succ fuel, acc, cs =>
    if sep.isPrefixOf cs then
      acc.reverse :: splitOnSepAux sep fuel [] (cs.drop sep.length)
    else
      match cs with
      | [] => [acc.reverse]
      | c :: t => splitOnSepAux sep fuel (c :: acc) t

/-- Python str.split with a non-empty separator string. -/
def splitOnSep (sep : List Char) (cs : List Char) : List (List Char) :=
  splitOnSepAux sep (cs.length + 1) [] cs

/-- Character class [:\s] used by the loose score / section regexes. -/
def isColonWs (c : Char) : Bool :=
  c = ':' || isWsPy c

/-- Attempt of the strict score regex "score" (quoted, with colon) followed by
"\s*(\d+)" at one position (jd_matcher.py line 176). -/
def scoreAttempt1 (cs : List Char) : Option Nat :=
  if "\"score\":".toList.isPrefixOf cs then
    let ds := ((cs.drop 8).dropWhile isWsPy).takeWhile isDigitC
    if ds.isEmpty then none else some (digitsVal ds)
  else none

/-- Attempt of a case-insensitive literal followed by "[:\s]*(\d+)" at one
position: the shape of the loose score regex and of the five category-score
regexes (jd_matcher.py lines 178 and 199). -/
def litNumAttempt (lit : List Char) (cs : List Char) : Option Nat :=
  if isPrefixCI lit cs then
    let ds := ((cs.drop lit.length).dropWhile isColonWs).takeWhile isDigitC
    if ds.isEmpty then none else some (digitsVal ds)
  else none

/-- Lookahead of the extract_section regex, "(?=\n\w+[:\s]|\n*$)": either the
remainder is newlines only (the "\n*$" branch, since the dollar anchor also
matches just before a trailing newline), or a newline followed by at least one
word character and then a colon-or-whitespace character. -/
def lookSection (l : List Char) : Bool :=
  l.all (fun c => c = '\n') ||
  (match l with
   | c :: rest =>
     if c = '\n' then
       let w := rest.takeWhile isWordC
       (!w.isEmpty) &&
         (match rest.drop w.length with
          | a :: _ => isColonWs a
          | [] => false)
     else false
   | [] => false)

/-- Lazy scan of the extract_section group "(.*?)" up to the first position
where the lookahead holds (the lookahead always holds at the end of input). -/
def secGroup : List Char → List Char → List Char
  | acc, [] => acc.reverse
  | acc, c :: t =>
    if lookSection (c :: t) then acc.reverse else secGroup (c :: acc) t

/-- Attempt of the extract_section regex at one position: the section name
(case-insensitive), a greedy "[:\s]*" run (which also consumes the optional
newline "\n?" of the pattern), then the lazy group. -/
def sectionAttempt (name : List Char) (cs : List Char) : Option (List Char) :=
  if isPrefixCI name cs then
    some (secGroup [] ((cs.drop name.length).dropWhile isColonWs))
  else none

/-- Model of extract_section (jd_matcher.py lines 205-211): group(1).strip()
of the first match, or the empty string when there is no match. -/
def extractSection (cs : List Char) (name : String) : List Char :=
  match searchAt (sectionAttempt name.toList) cs with
  | some g => stripL g
  | none => []

/-- Bullet characters recognised by extract_list_items: "[-*•]". -/
def isBulletC (c : Char) : Bool :=
  c = '-' || c = '*' || c = '•'

/-- Lookahead shared by the two extract_list_items regexes,
"(?=\n[-*•]|\n\d+\.|\n\w+|\n*$)". -/
def lookItems (l : List Char) : Bool :=
  l.all (fun c => c = '\n') ||
  (match l with
   | c :: rest =>
     if c = '\n' then
       (match rest with
        | r :: _ => isBulletC r
        | [] => false) ||
       (let ds := rest.takeWhile isDigitC
        (!ds.isEmpty) &&
          (match rest.drop ds.length with
           | d :: _ => d = '.'
           | [] => false)) ||
       (match rest with
        | r :: _ => isWordC r
        | [] => false)
     else false
   | [] => false)

/-- Lazy scan of the "(.+?)" group of extract_list_items up to the first
position where the lookahead holds; returns the group together with the
position after the match, where the findall scan resumes. -/
def itemGroup : List Char → List Char → Option (List Char × List Char)
  | acc, [] => some (acc.reverse, [])
  | acc, c :: t =>
    if lookItems (c :: t) then some (acc.reverse, c :: t)
    else itemGroup (c :: acc) t

/-- Start of the "(.+?)" group: at least one character is required. -/
def itemGroupStart : List Char → Option (List Char × List Char)
  | [] => none
  | c :: t => itemGroup [c] t

/-- Backtracking over the greedy "\s*" run before the lazy "(.+?)" group:
the regex engine tries the longest whitespace run first and shortens it until
the rest of the pattern matches. -/
def wsBacktrack (body : List Char) : Nat → Option (List Char × List Char)
  | 0 => itemGroupStart body
  | Nat.succ w =>
    match itemGroupStart (body.drop (Nat.succ w)) with
    | some r => some r
    | none => wsBacktrack body w

/-- Attempt of the bullet-item regex "[-*•]\s*(.+?)(?=...)" at one position. -/
def bulletAttempt (cs : List Char) : Option (List Char × List Char) :=
  match cs with
  | c :: t =>
    if isBulletC c then wsBacktrack t (t.takeWhile isWsPy).length else none
  | [] => none

/-- Attempt of the numbered-item regex "\d+\.\s*(.+?)(?=...)" at one
position. -/
def numberedAttempt (cs : List Char) : Option (List Char × List Char) :=
  let ds := cs.takeWhile isDigitC
  if ds.isEmpty then none
  else
    match cs.drop ds.length with
    | '.' :: t => wsBacktrack t (t.takeWhile isWsPy).length
    | _ => none

/-- Model of re.findall for the item regexes: scan left to right, emit each
match group and resume after the match. -/
def findAllItems (att : List Char → Option (List Char × List Char)) :
    Nat → List Char → List (List Char)
  | 0, _ => []
  | Nat.succ fuel, cs =>
    match cs with
    | [] => []
    | c :: t =>
      match att (c :: t) with
      | some (g, rest) => g :: findAllItems att fuel rest
      | none => findAllItems att fuel t

/-- Model of extract_list_items (jd_matcher.py lines 213-231): bullet items,
then numbered items, each stripped; if both kinds are absent, the first five
non-empty stripped lines; at most ten items are returned. -/
def extractListItems (cs : List Char) : List (List Char) :=
  let bullets := (findAllItems bulletAttempt (cs.length + 1) cs).map stripL
  let numbered := (findAllItems numberedAttempt (cs.length + 1) cs).map stripL
  let items := bullets ++ numbered
  let items :=
    if items.isEmpty then
      ((splitNl [] cs).map stripL |>.filter (fun l => !l.isEmpty)).take 5
    else items
  items.take 10

/-- Names of the five category-score keys, in the order of the source dict
literal. -/
def fiveCats : List String :=
  ["Technical Skills", "Experience", "Education", "Soft Skills", "Industry Knowledge"]

/-- Model of parse_text_response (jd_matcher.py lines 157-203): the fallback
text miner used by the match flow when JSON parsing fails. -/
def parseTextResponse (cs : List Char) : JValue :=
  let score : Nat :=
    match searchAt scoreAttempt1 cs with
    | some n => n
    | none =>
      match searchAt (litNumAttempt "score".toList) cs with
      | some n => n
      | none => 0
  let secItems := fun (name : String) =>
    let sec := extractSection cs name
    if sec.isEmpty then []
    else (extractListItems sec).map (fun l => JValue.str (String.mk l))
  let catVal := fun (name : String) =>
    match searchAt (litNumAttempt name.toList) cs with
    | some n => (n : Int)
    | none => 0
  .obj [("score", .int score),
        ("matching_skills", .arr (secItems "matching skills")),
        ("missing_skills", .arr (secItems "missing skills")),
        ("recommendations", .arr (secItems "recommendations")),
        ("category_scores", .obj (fiveCats.map (fun k => (k, JValue.int (catVal k)))))]

/-- Bare-JSON tier of parse_gemini_response in the match flow (jd_matcher.py
lines 141-155): strip, slice between the outermost braces when the text does
not already start and end with braces, parse, and fall back to the text miner
on failure (which receives the original unstripped text). -/
def bareJD (cs : List Char) : JValue :=
  let s := stripL cs
  let s2 := if startsWithBrace s && endsWithBrace s then s else braceSlice s
  match jsonParse s2 with
  | some v => v
  | none => parseTextResponse cs

/-- Model of jd_matcher.parse_gemini_response (lines 128-155): fenced JSON
first, then bare JSON, then the text miner. -/
def parseGeminiResponseJD (text : String) : JValue :=
  let cs := text.toList
  match fenceSearchA cs with
  | some g =>
    match jsonParse g with
    | some v => v
    | none => bareJD cs
  | none => bareJD cs

/-- Uncaught Python exception relevant to the two services. -/
inductive PyErr where
  | valueError (m : String)
  | overflowError (m : String)
  | typeError (m : String)
  | attributeError (m : String)
  | nameError (m : String)
deriving DecidableEq

/-- Message of an exception: str(e). -/
def PyErr.msg : PyErr → String
  | .valueError m => m
  | .overflowError m => m
  | .typeError m => m
  | .attributeError m => m
  | .nameError m => m

/-- Truncation of a rational toward zero: int() applied to a finite float. -/
def ratTruncZ (q : ℚ) : Int :=
  if q < 0 then -((((-q).num.toNat / (-q).den : Nat) : Int))
  else (((q.num.toNat / q.den : Nat) : Int))

/-- Combined model of the guard isinstance(v, (int, float)) followed by
int(v): .ok none when the value is not numeric (the guard fails; booleans
count as numeric because bool subclasses int), .ok (some n) for the converted
integer, and .error for the ValueError / OverflowError that int() raises on
NaN and on the infinities. -/
def pyToInt : JValue → Except PyErr (Option Int)
  | .int n => .ok (some n)
  | .bool b => .ok (some (if b then 1 else 0))
  | .float (.fin q) => .ok (some (ratTruncZ q))
  | .float .nan => .error (.valueError "cannot convert float NaN to integer")
  | .float .inf => .error (.overflowError "cannot convert float infinity to integer")
  | .float .ninf => .error (.overflowError "cannot convert float infinity to integer")
  | _ => .ok none

/-- Python str() of a value, as applied to list elements by the validator.
The renderings of floats and of nested containers are approximated (no claim
depends on them); str() on a string is the identity, which is what the claims
rely on. -/
def pyStr : JValue → String
  | .str s => s
  | .int n => toString n
  | .bool b => if b then "True" else "False"
  | .null => "None"
  | .float (.fin q) => toString q
  | .float .nan => "nan"
  | .float .inf => "inf"
  | .float .ninf => "-inf"
  | .arr _ => "<list>"
  | .obj _ => "<dict>"

/-- Python type name of a value, used in the AttributeError message. -/
def pyTypeName : JValue → String
  | .null => "NoneType"
  | .bool _ => "bool"
  | .int _ => "int"
  | .float _ => "float"
  | .str _ => "str"
  | .arr _ => "list"
  | .obj _ => "dict"

/-- Clamp to the range from 0 to 100: min(100, max(0, n)). -/
def clampI (n : Int) : Int :=
  min 100 (max 0 n)

/-- Score validation (jd_matcher.py lines 253-254): keep the default 0 unless
the source value is numeric, in which case clamp int(value); int() may
raise. -/
def vScore (kvs : List (String × JValue)) : Except PyErr Int :=
  match dget kvs "score" with
  | none => .ok 0
  | some v =>
    match pyToInt v with
    | .error e => .error e
    | .ok none => .ok 0
    | .ok (some n) => .ok (clampI n)

/-- List-field validation (jd_matcher.py lines 257-259): when the field is
present and is a list, coerce every element with str() and keep at most 20
items; otherwise keep the default empty list. -/
def vList (kvs : List (String × JValue)) (field : String) : List JValue :=
  match dget kvs field with
  | some (.arr l) => (l.map (fun x => JValue.str (pyStr x))).take 20
  | _ => []

/-- Category-score validation for one fixed key (jd_matcher.py lines
262-265): keep the default 0 unless category_scores is a dict containing the
key with a numeric value, in which case clamp int(value). -/
def vCat (kvs : List (String × JValue)) (key : String) : Except PyErr Int :=
  match dget kvs "category_scores" with
  | some (.obj cats) =>
    (match dget cats key with
     | none => .ok 0
     | some v =>
       match pyToInt v with
       | .error e => .error e
       | .ok none => .ok 0
       | .ok (some n) => .ok (clampI n))
  | _ => .ok 0

/-- Model of validate_result_structure (jd_matcher.py lines 233-267).  The
source starts from a default dict and assigns validated values in place, so
the output keys and their order are those of the default literal; a non-dict
argument raises AttributeError at result.get("score"). -/
def validateJD : JValue → Except PyErr JValue
  | .obj kvs => do
    let s ← vScore kvs
    let ms := vList kvs "matching_skills"
    let mis := vList kvs "missing_skills"
    let recs := vList kvs "recommendations"
    let c1 ← vCat kvs "Technical Skills"
    let c2 ← vCat kvs "Experience"
    let c3 ← vCat kvs "Education"
    let c4 ← vCat kvs "Soft Skills"
    let c5 ← vCat kvs "Industry Knowledge"
    pure (.obj [("score", .int s),
                ("matching_skills", .arr ms),
                ("missing_skills", .arr mis),
                ("recommendations", .arr recs),
                ("category_scores", .obj
                  [("Technical Skills", .int c1),
                   ("Experience", .int c2),
                   ("Education", .int c3),
                   ("Soft Skills", .int c4),
                   ("Industry Knowledge", .int c5)])])
  | v =>
    .error (.attributeError
      (sq ++ pyTypeName v ++ sq ++ " object has no attribute " ++ sq ++ "get" ++ sq))

/-- Provider configuration and model construction outcome shared by both
flows: whether settings.GEMINI_API_KEY is truthy, and whether
genai.GenerativeModel construction succeeds (with the exception message when
it does not). -/
structure GeminiConfig where
  apiKeySet : Bool
  modelCreate : Except String Unit

/-- Error-shaped MatchResult (jd_matcher.py lines 23-36) with its error field
assigned; the key order is that of the source literal. -/
def errorResponseJD (msg : String) : JValue :=
  .obj [("error", .str msg),
        ("score", .int 0),
        ("matching_skills", .arr []),
        ("missing_skills", .arr []),
        ("recommendations", .arr []),
        ("category_scores", .obj
          [("Technical Skills", .int 0),
           ("Experience", .int 0),
           ("Education", .int 0),
           ("Soft Skills", .int 0),
           ("Industry Knowledge", .int 0)])]

/-- Message of the resume-too-short error in the match flow. -/
def tooShortResumeMsg : String :=
  "Resume text is too short or couldn" ++ sq ++ "t be properly extracted"

/-- Message of the job-description-too-short error in the match flow. -/
def tooShortJdMsg : String :=
  "Job description is too short or couldn" ++ sq ++ "t be properly extracted"

/-- Model of compare_resume_jd (jd_matcher.py lines 15-126).  The second
component of the result records whether model.generate_content was invoked;
the call parameter abstracts the response text (or a raised provider
exception) and is consulted only on the branch that performs the call. -/
def compareResumeJd (cfg : GeminiConfig) (resumeText jdText : String)
    (call : Except String String) : JValue × Bool :=
  if cfg.apiKeySet = false then
    (errorResponseJD "Gemini API key is not configured", false)
  else if resumeText.length < 50 then
    (errorResponseJD tooShortResumeMsg, false)
  else if jdText.length < 50 then
    (errorResponseJD tooShortJdMsg, false)
  else
    match cfg.modelCreate with
    | .error e => (errorResponseJD ("Failed to create Gemini model: " ++ e), false)
    | .ok _ =>
      match call with
      | .error e => (errorResponseJD e, true)
      | .ok text =>
        match validateJD (parseGeminiResponseJD text) with
        | .ok d => (d, true)
        | .error pe => (errorResponseJD pe.msg, true)

/-- Section of the analyzer fallback parser (the five keys of its sections
dict, analyzer.py lines 169-175). -/
inductive ASection where
  | strengths
  | areas
  | projects
  | roadmap
  | courses
deriving DecidableEq

/-- Working state of the analyzer fallback parser: the five content fields of
its result dict (raw_analysis is attached separately; it is set once at
initialisation and never touched again). -/
structure ARec where
  strengths : List String
  areas : List String
  projects : List String
  roadmap : String
  courses : List String
deriving DecidableEq

/-- Keyword lists of the analyzer fallback parser, in the iteration order of
the source sections dict. -/
def sectionKeywords : List (ASection × List String) :=
  [(.strengths, ["strength", "strengths", "strong points"]),
   (.areas, ["improvement", "weaknesses", "areas of improvement", "improve"]),
   (.projects, ["project", "projects", "build", "create"]),
   (.roadmap, ["roadmap", "career path", "growth path"]),
   (.courses, ["courses", "certification", "learn", "study"])]

/-- Header recognition (analyzer.py lines 186-195): the first section, in
dict order, one of whose keywords occurs in the lowercased line, provided the
line contains a colon or a hash anywhere or a dot among its first two
characters. -/
def headerSection (line : List Char) : Option ASection :=
  let lower := line.map Char.toLower
  let delim := containsSub line ":".toList || containsSub line "#".toList ||
    containsSub (line.take 2) ".".toList
  sectionKeywords.findSome? (fun p =>
    if (p.2.any (fun kw => containsSub lower kw.toList)) && delim then some p.1 else none)

/-- Bullet-line test (analyzer.py line 200). -/
def isBulletLine (line : List Char) : Bool :=
  "- ".toList.isPrefixOf line || "* ".toList.isPrefixOf line ||
  "• ".toList.isPrefixOf line

/-- Item of a bullet line: line.lstrip("- *•").strip() (analyzer.py
line 201). -/
def bulletItem (line : List Char) : List Char :=
  stripL (line.dropWhile (fun c => c = '-' || c = ' ' || c = '*' || c = '•'))

/-- Append a bullet item to the active section.  The source guards the append
with membership of the section in the four list-valued section names, so an
item under the career-roadmap section is dropped (analyzer.py line 202). -/
def addItem (r : ARec) (s : ASection) (item : String) : ARec :=
  match s with
  | .strengths => { r with strengths := r.strengths ++ [item] }
  | .areas => { r with areas := r.areas ++ [item] }
  | .projects => { r with projects := r.projects ++ [item] }
  | .courses => { r with courses := r.courses ++ [item] }
  | .roadmap => r

/-- NameError raised by the analyzer fallback parser: analyzer.py imports re
only locally inside analyze_resume (line 101), so the module global re does
not exist and evaluating the condition re.match(...) at line 206 raises.  The
numbered-item branch and the career-roadmap prose branch behind it are
therefore unreachable. -/
def nameErrRe : PyErr :=
  .nameError ("name " ++ sq ++ "re" ++ sq ++ " is not defined")

/-- Line loop of parse_gemini_response (analyzer.py lines 178-213): strip
each line, skip empty lines, switch sections on header lines, collect bullet
items under the active section, and raise NameError on any other content line
under an active section (see nameErrRe). -/
def scanLines : List (List Char) → Option ASection → ARec → Except PyErr ARec
  | [], _, r => .ok r
  | rawLine :: rest, cur, r =>
    let line := stripL rawLine
    if line.isEmpty then scanLines rest cur r
    else
      match headerSection line with
      | some s => scanLines rest (some s) r
      | none =>
        match cur with
        | none => scanLines rest none r
        | some s =>
          if isBulletLine line then
            scanLines rest cur (addItem r s (String.mk (bulletItem line)))
          else .error nameErrRe

/-- True when every section field is still falsy (analyzer.py line 216). -/
def ARec.allEmpty (r : ARec) : Bool :=
  r.strengths.isEmpty && r.areas.isEmpty && r.projects.isEmpty &&
  r.roadmap = "" && r.courses.isEmpty

/-- Positional paragraph fallback (analyzer.py lines 217-227): split the raw
text on blank lines and, when at least five paragraphs exist, assign the
first five in fixed order. -/
def paraFallback (text : String) (r : ARec) : ARec :=
  match (splitOnSep "\n\n".toList text.toList).map String.mk with
  | p0 :: p1 :: p2 :: p3 :: p4 :: _ =>
    { strengths := [p0], areas := [p1], projects := [p2], roadmap := p3, courses := [p4] }
  | _ => r

/-- Placeholder back-fill (analyzer.py lines 229-239). -/
def backfillRec (r : ARec) : ARec :=
  { strengths :=
      if r.strengths.isEmpty then ["Could not extract strengths from analysis"]
      else r.strengths,
    areas :=
      if r.areas.isEmpty then ["Could not extract areas of improvement from analysis"]
      else r.areas,
    projects :=
      if r.projects.isEmpty then ["Could not extract project recommendations from analysis"]
      else r.projects,
    roadmap :=
      if r.roadmap = "" then "Could not extract career roadmap from analysis"
      else r.roadmap,
    courses :=
      if r.courses.isEmpty then ["Could not extract recommended courses from analysis"]
      else r.courses }

/-- Model of analyzer.parse_gemini_response (lines 152-242): line scan, then
the positional paragraph fallback when nothing was collected, then the
placeholder back-fill.  The NameError of the line scan propagates. -/
def parseGeminiResponseA (text : String) : Except PyErr ARec :=
  match scanLines (splitNl [] text.toList) none ⟨[], [], [], "", []⟩ with
  | .error e => .error e
  | .ok r =>
    let r2 := if r.allEmpty then paraFallback text r else r
    .ok (backfillRec r2)

/-- Result dict of the analyzer fallback parser, in the key order of the
source literal (analyzer.py lines 159-166); raw_analysis holds the original
response text. -/
def toDictA (text : String) (r : ARec) : JValue :=
  .obj [("strengths", .arr (r.strengths.map JValue.str)),
        ("areas_of_improvement", .arr (r.areas.map JValue.str)),
        ("project_recommendations", .arr (r.projects.map JValue.str)),
        ("career_roadmap", .str r.roadmap),
        ("recommended_courses", .arr (r.courses.map JValue.str)),
        ("raw_analysis", .str text)]

/-- JSON candidate of the analyzer strict path (analyzer.py lines 100-117):
the fenced group when the fence regex matches, else the whole response text;
then strip, and slice between the outermost braces when the candidate does
not already start and end with braces. -/
def strictCandidateA (text : String) : List Char :=
  let js :=
    match fenceSearchB text.toList with
    | some g => g
    | none => text.toList
  let js2 := stripL js
  if startsWithBrace js2 && endsWithBrace js2 then js2 else braceSlice js2

/-- Required fields of the analysis result, in back-fill order (analyzer.py
lines 124-125). -/
def requiredFieldsA : List String :=
  ["strengths", "areas_of_improvement", "project_recommendations",
   "career_roadmap", "recommended_courses"]

/-- Python membership test field in result for an arbitrary value: key lookup
on a dict, substring test on a str, element equality on a list, TypeError on
non-iterable values. -/
def pyIn (field : String) : JValue → Except PyErr Bool
  | .obj kvs => .ok (dmem kvs field)
  | .str s => .ok (containsSub s.toList field.toList)
  | .arr l =>
    .ok (l.any (fun x =>
      match x with
      | .str t => t = field
      | _ => false))
  | v =>
    .error (.typeError
      ("argument of type " ++ sq ++ pyTypeName v ++ sq ++ " is not iterable"))

/-- Python item assignment result[field] = v: works on a dict, raises
TypeError on every other value produced by json.loads. -/
def pySetItem (result : JValue) (field : String) (v : JValue) : Except PyErr JValue :=
  match result with
  | .obj kvs => .ok (.obj (dset kvs field v))
  | .arr _ => .error (.typeError "list indices must be integers or slices, not str")
  | w =>
    .error (.typeError
      (sq ++ pyTypeName w ++ sq ++ " object does not support item assignment"))

/-- Value assigned to a missing required field (analyzer.py line 129): the
empty list, except for career_roadmap which gets a placeholder string. -/
def backfillDefault (f : String) : JValue :=
  if f = "career_roadmap" then JValue.str "No information provided" else JValue.arr []

/-- Back-fill of the required fields on the strict-parse result (analyzer.py
lines 123-129): each missing field is assigned backfillDefault. -/
def backfillA : JValue → List String → Except PyErr JValue
  | result, [] => .ok result
  | result, f :: rest => do
    let present ← pyIn f result
    if present then backfillA result rest
    else
      let result2 ← pySetItem result f (backfillDefault f)
      backfillA result2 rest

/-- Strict-parse tier of analyze_resume (the inner try at analyzer.py lines
99-131): extract the candidate, json.loads it, back-fill the required
fields.  Any exception in this block is caught at line 133 and routes to the
fallback parser, so the error information is discarded. -/
def strictPathA (text : String) : Except Unit JValue :=
  match jsonParse (strictCandidateA text) with
  | none => .error ()
  | some v =>
    match backfillA v requiredFieldsA with
    | .ok d => .ok d
    | .error _ => .error ()

/-- Result returned when the API key is missing (analyzer.py lines 21-28). -/
def apiKeyMissingA : JValue :=
  .obj [("error", .str "Gemini API key is not configured"),
        ("strengths", .arr [.str "API key missing"]),
        ("areas_of_improvement", .arr [.str "Configure Gemini API key"]),
        ("project_recommendations", .arr [.str "Set up proper API configuration"]),
        ("career_roadmap", .str "Please configure the Gemini API key to get results"),
        ("recommended_courses", .arr [.str "API configuration course"])]

/-- Result returned when model construction fails (analyzer.py lines
38-45). -/
def modelFailA (e : String) : JValue :=
  .obj [("error", .str ("Failed to create Gemini model: " ++ e)),
        ("strengths", .arr []),
        ("areas_of_improvement", .arr []),
        ("project_recommendations", .arr []),
        ("career_roadmap", .str "Error occurred during analysis setup"),
        ("recommended_courses", .arr [])]

/-- Message of the too-short error in the analysis flow. -/
def tooShortMsgA : String :=
  "Resume text is too short or couldn" ++ sq ++ "t be properly extracted"

/-- Result returned for short input (analyzer.py lines 50-57). -/
def tooShortA : JValue :=
  .obj [("error", .str tooShortMsgA),
        ("strengths", .arr [.str "Unable to analyze - resume text too short"]),
        ("areas_of_improvement", .arr [.str "Provide a more complete resume"]),
        ("project_recommendations", .arr []),
        ("career_roadmap", .str "Please provide a more detailed resume for analysis"),
        ("recommended_courses", .arr [])]

/-- Result of the outer exception handler (analyzer.py lines 143-150); msg is
str(e) for the caught exception e. -/
def apiErrorA (msg : String) : JValue :=
  .obj [("error", .str msg),
        ("strengths", .arr [.str "Error occurred during analysis"]),
        ("areas_of_improvement", .arr [.str "Try again later"]),
        ("project_recommendations", .arr []),
        ("career_roadmap", .str ("Error occurred during analysis: " ++ msg)),
        ("recommended_courses", .arr [])]

/-- Model of analyze_resume (analyzer.py lines 12-150).  The second component
records whether model.generate_content was invoked.  Branch order follows the
source: API-key check, model construction, length check, model call, strict
parse, fallback parser; an exception raised by the fallback parser (see
nameErrRe) reaches the outer handler and is surfaced through apiErrorA. -/
def analyzeResume (cfg : GeminiConfig) (resumeText : String)
    (call : Except String String) : JValue × Bool :=
  if cfg.apiKeySet = false then (apiKeyMissingA, false)
  else
    match cfg.modelCreate with
    | .error e => (modelFailA e, false)
    | .ok _ =>
      if resumeText.length < 50 then (tooShortA, false)
      else
        match call with
        | .error e => (apiErrorA e, true)
        | .ok text =>
          match strictPathA text with
          | .ok d => (d, true)
          | .error _ =>
            match parseGeminiResponseA text with
            | .ok r => (toDictA text r, true)
            | .error pe => (apiErrorA pe.msg, true)

/-- Lookup of a key on a result value, defined when the value is a dict. -/
def jdget : JValue → String → Option JValue
  | .obj kvs, k => dget kvs k
  | _, _ => none

/-- Top-level keys of a validated MatchResult, in source literal order. -/
def matchKeys : List String :=
  ["score", "matching_skills", "missing_skills", "recommendations", "category_scores"]

/-- Validated MatchResult dict with the given field values, in the key order
of the default literal of validate_result_structure. -/
def mkValidated (s : Int) (ms mis recs : List JValue) (c1 c2 c3 c4 c5 : Int) : JValue :=
  .obj [("score", .int s),
        ("matching_skills", .arr ms),
        ("missing_skills", .arr mis),
        ("recommendations", .arr recs),
        ("category_scores", .obj
          [("Technical Skills", .int c1),
           ("Experience", .int c2),
           ("Education", .int c3),
           ("Soft Skills", .int c4),
           ("Industry Knowledge", .int c5)])]

/-- Conformance of a value to the target MatchResult shape: exactly the five
fields in canonical order, an integer score within bounds, string lists of at
most 20 entries, and the five category keys with integers within bounds. -/
def ConformantMatch (v : JValue) : Prop :=
  ∃ s ms mis recs c1 c2 c3 c4 c5,
    v = mkValidated s ms mis recs c1 c2 c3 c4 c5 ∧
    0 ≤ s ∧ s ≤ 100 ∧
    ms.length ≤ 20 ∧ (∀ x ∈ ms, ∃ t, x = JValue.str t) ∧
    mis.length ≤ 20 ∧ (∀ x ∈ mis, ∃ t, x = JValue.str t) ∧
    recs.length ≤ 20 ∧ (∀ x ∈ recs, ∃ t, x = JValue.str t) ∧
    0 ≤ c1 ∧ c1 ≤ 100 ∧ 0 ≤ c2 ∧ c2 ≤ 100 ∧ 0 ≤ c3 ∧ c3 ≤ 100 ∧
    0 ≤ c4 ∧ c4 ≤ 100 ∧ 0 ≤ c5 ∧ c5 ≤ 100

/-- Configuration with the credential present and model construction
succeeding. -/
def okConfig : GeminiConfig := ⟨true, Except.ok ()⟩

/-- Concrete resume text of at least 50 characters, used to drive the flows
past the length check. -/
def sampleResumeText : String :=
  "This is a sufficiently long resume text for the analyzer to proceed with the model call."

/-- Concrete raw model response whose section content is plain prose: a
header line recognised as the strengths section followed by a non-bullet
line. -/
def proseResponse : String := "Strengths:\nGood communication skills"

/-- Raw model text of the worked example of the specification (section 8). -/
def c3RawText : String :=
  "Sure! ```json\n\x7b\"score\": 105, \"matching_skills\": [\"Go\"], \"category_scores\": \x7b\"Technical Skills\": 200\x7d\x7d\n```"

/-- Expected normalized-and-validated result of the worked example. -/
def c3Expected : JValue := mkValidated 100 [.str "Go"] [] [] 100 0 0 0 0

/-- Raw model response that strict-parses to a JSON object which itself
supplies a raw_analysis key. -/
def c8RawText : String := "\x7b\"raw_analysis\": \"x\"\x7d"

/-- Serialization of a conformant MatchResult containing a ```json fence
inside one of its string values. -/
def c9BadText : String :=
  "\x7b\"score\": 0, \"matching_skills\": [\"```json \x7b \x7d ```\"], \"missing_skills\": [], \"recommendations\": [], \"category_scores\": \x7b\"Technical Skills\": 0, \"Experience\": 0, \"Education\": 0, \"Soft Skills\": 0, \"Industry Knowledge\": 0\x7d\x7d"

/-- Value denoted by c9BadText. -/
def c9BadVal : JValue := mkValidated 0 [.str "```json \x7b \x7d ```"] [] [] 0 0 0 0 0

/-- Serialization of a conformant MatchResult with no fence inside. -/
def c9GoodText : String :=
  "\x7b\"score\": 50, \"matching_skills\": [\"Python\"], \"missing_skills\": [], \"recommendations\": [], \"category_scores\": \x7b\"Technical Skills\": 10, \"Experience\": 20, \"Education\": 30, \"Soft Skills\": 40, \"Industry Knowledge\": 50\x7d\x7d"

/-- Value denoted by c9GoodText. -/
def c9GoodVal : JValue := mkValidated 50 [.str "Python"] [] [] 10 20 30 40 50

/-- Absence of the float values on which int() raises. -/
def noBadFloat (v : JValue) : Prop :=
  v ≠ .float .nan ∧ v ≠ .float .inf ∧ v ≠ .float .ninf

/-- Concrete job-description text of at least 50 characters. -/
def sampleJdText : String :=
  "This is a sufficiently long job description text for the matcher to proceed with the call."

/-- Raw model response for the strict-passthrough example: a JSON object with
an extra key and one required field present. -/
def c10RawText : String := "\x7b\"bonus\": 7, \"strengths\": [\"a\"]\x7d"

/-- Shape invariant of the category_scores field of a result dict: exactly
the five fixed keys, in order, each bound to an integer between 0 and 100. -/
def CatShape (d : JValue) : Prop :=
  ∃ cs, jdget d "category_scores" = some (.obj cs) ∧
    cs.map Prod.fst = fiveCats ∧
    (∀ p ∈ cs, ∃ n : Int, p.2 = .int n ∧ 0 ≤ n ∧ n ≤ 100) ∧
    (∀ k, k ∉ fiveCats → dget cs k = none)

theorem exbind_ok {α β γ : Type} (a : α) (f : α → Except γ β) :
    ((Except.ok a : Except γ α) >>= f) = f a := rfl

theorem exbind_err {α β γ : Type} (e : γ) (f : α → Except γ β) :
    ((Except.error e : Except γ α) >>= f) = Except.error e := rfl

theorem clampI_nonneg (n : Int) : 0 ≤ clampI n := by
  unfold clampI
  exact le_min (by norm_num) (le_max_left 0 n)

theorem clampI_le (n : Int) : clampI n ≤ 100 := by
  unfold clampI
  exact min_le_left 100 (max 0 n)

theorem clampI_of_mem (n : Int) (h0 : 0 ≤ n) (h1 : n ≤ 100) : clampI n = n := by
  unfold clampI
  rw [max_eq_right h0, min_eq_right h1]

theorem dget_dset_self (kvs : List (String × JValue)) (k : String) (v : JValue) :
    dget (dset kvs k v) k = some v := by
  induction kvs with
  | nil => simp [dset, dget]
  | cons p rest ih =>
    obtain ⟨k0, v0⟩ := p
    by_cases h : k0 = k
    · simp [dset, dget, h]
    · simp [dset, dget, h, ih]

theorem dget_dset_ne (kvs : List (String × JValue)) (k k' : String) (v : JValue)
    (h : k' ≠ k) : dget (dset kvs k v) k' = dget kvs k' := by
  have hne : k ≠ k' := fun hh => h hh.symm
  induction kvs with
  | nil => simp [dset, dget, hne]
  | cons p rest ih =>
    obtain ⟨k0, v0⟩ := p
    by_cases h0 : k0 = k
    · subst h0
      simp [dset, dget, hne]
    · simp [dset, dget, h0, ih]

theorem dget_none_of_not_mem (cs : List (String × JValue)) (k : String)
    (h : k ∉ cs.map Prod.fst) : dget cs k = none := by
  induction cs with
  | nil => rfl
  | cons p rest ih =>
    simp only [List.map_cons, List.mem_cons] at h
    push_neg at h
    obtain ⟨k0, v0⟩ := p
    simp only [dget]
    rw [if_neg (fun hh => h.1 hh.symm)]
    exact ih h.2

theorem map_pyStr_str (l : List JValue) (h : ∀ x ∈ l, ∃ t, x = JValue.str t) :
    l.map (fun x => JValue.str (pyStr x)) = l := by
  induction l with
  | nil => rfl
  | cons a rest ih =>
    obtain ⟨t, rfl⟩ := h a (List.mem_cons_self a rest)
    simp only [List.map_cons, List.cons.injEq]
    exact ⟨rfl, ih (fun x hx => h x (List.mem_cons_of_mem _ hx))⟩

theorem vList_all_str (kvs : List (String × JValue)) (f : String) :
    ∀ x ∈ vList kvs f, ∃ t, x = JValue.str t := by
  intro x hx
  unfold vList at hx
  rcases hd : dget kvs f with _ | v
  · rw [hd] at hx; simp at hx
  · rw [hd] at hx
    cases v <;> simp at hx
    case arr l =>
      obtain ⟨y, _, rfl⟩ := List.mem_map.mp (List.mem_of_mem_take hx)
      exact ⟨pyStr y, rfl⟩

theorem vList_len (kvs : List (String × JValue)) (f : String) :
    (vList kvs f).length ≤ 20 := by
  unfold vList
  rcases hd : dget kvs f with _ | v
  · simp
  · cases v <;> simp [List.length_take]

theorem vScore_ok_bounds (kvs : List (String × JValue)) (s : Int)
    (h : vScore kvs = .ok s) : 0 ≤ s ∧ s ≤ 100 := by
  unfold vScore at h
  split at h
  · cases h; exact ⟨le_refl 0, by norm_num⟩
  · split at h
    · cases h
    · cases h; exact ⟨le_refl 0, by norm_num⟩
    · cases h
      case _ n _ => exact ⟨clampI_nonneg n, clampI_le n⟩

theorem vCat_ok_bounds (kvs : List (String × JValue)) (k : String) (c : Int)
    (h : vCat kvs k = .ok c) : 0 ≤ c ∧ c ≤ 100 := by
  unfold vCat at h
  split at h
  · split at h
    · cases h; exact ⟨le_refl 0, by norm_num⟩
    · split at h
      · cases h
      · cases h; exact ⟨le_refl 0, by norm_num⟩
      · cases h
        case _ n _ => exact ⟨clampI_nonneg n, clampI_le n⟩
  · cases h; exact ⟨le_refl 0, by norm_num⟩

theorem dmem_iff (kvs : List (String × JValue)) (k : String) :
    dmem kvs k = true ↔ ∃ v, dget kvs k = some v := by
  simp [dmem, Option.isSome_iff_exists]

theorem validateJD_obj_ok_inv (kvs : List (String × JValue)) (m : JValue)
    (h : validateJD (.obj kvs) = .ok m) :
    ∃ s c1 c2 c3 c4 c5,
      vScore kvs = .ok s ∧
      vCat kvs "Technical Skills" = .ok c1 ∧
      vCat kvs "Experience" = .ok c2 ∧
      vCat kvs "Education" = .ok c3 ∧
      vCat kvs "Soft Skills" = .ok c4 ∧
      vCat kvs "Industry Knowledge" = .ok c5 ∧
      m = mkValidated s (vList kvs "matching_skills") (vList kvs "missing_skills")
            (vList kvs "recommendations") c1 c2 c3 c4 c5 := by
  unfold validateJD at h
  cases hs : vScore kvs with
  | error e => simp only [hs, exbind_err] at h; cases h
  | ok s =>
    simp only [hs, exbind_ok] at h
    cases h1 : vCat kvs "Technical Skills" with
    | error e => simp only [h1, exbind_err] at h; cases h
    | ok c1 =>
      simp only [h1, exbind_ok] at h
      cases h2 : vCat kvs "Experience" with
      | error e => simp only [h2, exbind_err] at h; cases h
      | ok c2 =>
        simp only [h2, exbind_ok] at h
        cases h3 : vCat kvs "Education" with
        | error e => simp only [h3, exbind_err] at h; cases h
        | ok c3 =>
          simp only [h3, exbind_ok] at h
          cases h4 : vCat kvs "Soft Skills" with
          | error e => simp only [h4, exbind_err] at h; cases h
          | ok c4 =>
            simp only [h4, exbind_ok] at h
            cases h5 : vCat kvs "Industry Knowledge" with
            | error e => simp only [h5, exbind_err] at h; cases h
            | ok c5 =>
              simp only [h5, exbind_ok] at h
              refine ⟨s, c1, c2, c3, c4, c5, rfl, rfl, rfl, rfl, rfl, rfl, ?_⟩
              cases h
              rfl

theorem validateJD_obj_eq (kvs : List (String × JValue)) (s c1 c2 c3 c4 c5 : Int)
    (hs : vScore kvs = .ok s)
    (h1 : vCat kvs "Technical Skills" = .ok c1)
    (h2 : vCat kvs "Experience" = .ok c2)
    (h3 : vCat kvs "Education" = .ok c3)
    (h4 : vCat kvs "Soft Skills" = .ok c4)
    (h5 : vCat kvs "Industry Knowledge" = .ok c5) :
    validateJD (.obj kvs) = .ok (mkValidated s (vList kvs "matching_skills")
      (vList kvs "missing_skills") (vList kvs "recommendations") c1 c2 c3 c4 c5) := by
  unfold validateJD
  simp only [hs, h1, h2, h3, h4, h5, exbind_ok]
  rfl

theorem validateJD_ok_conformant (kvs : List (String × JValue)) (m : JValue)
    (h : validateJD (.obj kvs) = .ok m) : ConformantMatch m := by
  obtain ⟨s, c1, c2, c3, c4, c5, hs, h1, h2, h3, h4, h5, rfl⟩ :=
    validateJD_obj_ok_inv kvs m h
  exact ⟨s, _, _, _, c1, c2, c3, c4, c5, rfl,
    (vScore_ok_bounds _ _ hs).1, (vScore_ok_bounds _ _ hs).2,
    vList_len _ _, vList_all_str _ _,
    vList_len _ _, vList_all_str _ _,
    vList_len _ _, vList_all_str _ _,
    (vCat_ok_bounds _ _ _ h1).1, (vCat_ok_bounds _ _ _ h1).2,
    (vCat_ok_bounds _ _ _ h2).1, (vCat_ok_bounds _ _ _ h2).2,
    (vCat_ok_bounds _ _ _ h3).1, (vCat_ok_bounds _ _ _ h3).2,
    (vCat_ok_bounds _ _ _ h4).1, (vCat_ok_bounds _ _ _ h4).2,
    (vCat_ok_bounds _ _ _ h5).1, (vCat_ok_bounds _ _ _ h5).2⟩

theorem validate_mkValidated (s : Int) (ms mis recs : List JValue) (c1 c2 c3 c4 c5 : Int)
    (hs0 : 0 ≤ s) (hs1 : s ≤ 100)
    (hml : ms.length ≤ 20) (hms : ∀ x ∈ ms, ∃ t, x = JValue.str t)
    (hil : mis.length ≤ 20) (his : ∀ x ∈ mis, ∃ t, x = JValue.str t)
    (hrl : recs.length ≤ 20) (hrs : ∀ x ∈ recs, ∃ t, x = JValue.str t)
    (hc1a : 0 ≤ c1) (hc1b : c1 ≤ 100) (hc2a : 0 ≤ c2) (hc2b : c2 ≤ 100)
    (hc3a : 0 ≤ c3) (hc3b : c3 ≤ 100) (hc4a : 0 ≤ c4) (hc4b : c4 ≤ 100)
    (hc5a : 0 ≤ c5) (hc5b : c5 ≤ 100) :
    validateJD (mkValidated s ms mis recs c1 c2 c3 c4 c5)
      = .ok (mkValidated s ms mis recs c1 c2 c3 c4 c5) := by
  have hmm := map_pyStr_str ms hms
  have hii := map_pyStr_str mis his
  have hrr := map_pyStr_str recs hrs
  simp [mkValidated, validateJD, vScore, vCat, vList, dget, pyToInt, exbind_ok, hmm, hii, hrr,
    List.take_of_length_le hml, List.take_of_length_le hil, List.take_of_length_le hrl,
    clampI_of_mem s hs0 hs1, clampI_of_mem c1 hc1a hc1b, clampI_of_mem c2 hc2a hc2b,
    clampI_of_mem c3 hc3a hc3b, clampI_of_mem c4 hc4a hc4b, clampI_of_mem c5 hc5a hc5b]

theorem conformant_validate_id (v : JValue) (h : ConformantMatch v) :
    validateJD v = .ok v := by
  obtain ⟨s, ms, mis, recs, c1, c2, c3, c4, c5, rfl, hs0, hs1, hml, hms, hil, his, hrl, hrs,
    hc1a, hc1b, hc2a, hc2b, hc3a, hc3b, hc4a, hc4b, hc5a, hc5b⟩ := h
  exact validate_mkValidated s ms mis recs c1 c2 c3 c4 c5 hs0 hs1 hml hms hil his hrl hrs
    hc1a hc1b hc2a hc2b hc3a hc3b hc4a hc4b hc5a hc5b

theorem validateJD_idem (d m : JValue) (h : validateJD d = .ok m) :
    validateJD m = .ok m := by
  cases d
  case obj kvs => exact conformant_validate_id m (validateJD_ok_conformant kvs m h)
  all_goals simp [validateJD] at h

theorem backfillA_obj (fs : List String) (kvs : List (String × JValue)) :
    ∃ kvs2, backfillA (.obj kvs) fs = .ok (.obj kvs2) ∧
      (∀ k, k ∉ fs → dget kvs2 k = dget kvs k) ∧
      (∀ k, k ∈ fs → dget kvs2 k = some ((dget kvs k).getD (backfillDefault k))) := by
  induction fs generalizing kvs with
  | nil =>
    exact ⟨kvs, rfl, fun _ _ => rfl, fun k hk => absurd hk (List.not_mem_nil k)⟩
  | cons f rest ih =>
    by_cases hm : dmem kvs f = true
    · obtain ⟨kvs2, he, hout, hin⟩ := ih kvs
      refine ⟨kvs2, ?_, ?_, ?_⟩
      · simp [backfillA, pyIn, hm, he, exbind_ok]
      · intro k hk
        exact hout k (fun hh => hk (List.mem_cons_of_mem f hh))
      · intro k hk
        rcases List.mem_cons.mp hk with rfl | hk2
        · obtain ⟨v, hv⟩ := (dmem_iff kvs k).mp hm
          by_cases hf : k ∈ rest
          · rw [hin k hf]
          · rw [hout k hf, hv]
            simp [hv]
        · exact hin k hk2
    · obtain ⟨kvs2, he, hout, hin⟩ := ih (dset kvs f (backfillDefault f))
      have hnone : dget kvs f = none := by
        cases hd : dget kvs f with
        | none => rfl
        | some v => exact absurd ((dmem_iff kvs f).mpr ⟨v, hd⟩) hm
      refine ⟨kvs2, ?_, ?_, ?_⟩
      · simp [backfillA, pyIn, hm, pySetItem, he, exbind_ok]
      · intro k hk
        have hkf : k ≠ f := fun hh => hk (hh ▸ List.mem_cons_self f rest)
        rw [hout k (fun hh => hk (List.mem_cons_of_mem f hh)),
          dget_dset_ne kvs f k (backfillDefault f) hkf]
      · intro k hk
        rcases List.mem_cons.mp hk with rfl | hk2
        · by_cases hf : k ∈ rest
          · rw [hin k hf, dget_dset_self, hnone]
            rfl
          · rw [hout k hf, dget_dset_self, hnone]
            rfl
        · by_cases hkf : k = f
          · subst hkf
            rw [hin k hk2, dget_dset_self, hnone]
            rfl
          · rw [hin k hk2, dget_dset_ne kvs f k (backfillDefault f) hkf]

theorem backfillRec_nonempty (r : ARec) :
    (backfillRec r).strengths ≠ [] ∧ (backfillRec r).areas ≠ [] ∧
    (backfillRec r).projects ≠ [] ∧ (backfillRec r).courses ≠ [] ∧
    (backfillRec r).roadmap ≠ "" := by
  unfold backfillRec
  refine ⟨?_, ?_, ?_, ?_, ?_⟩ <;> dsimp only
  · split
    · simp
    · simp_all [List.isEmpty_iff]
  · split
    · simp
    · simp_all [List.isEmpty_iff]
  · split
    · simp
    · simp_all [List.isEmpty_iff]
  · split
    · simp
    · simp_all [List.isEmpty_iff]
  · split
    · decide
    · assumption

/-- C1: the claim says a parse or normalization failure is never surfaced
through the error field and that the heuristic fallback always completes.
The code contradicts this: analyzer.py never imports re at module scope, so
on the concrete response below (a strengths header followed by a plain prose
line) the fallback raises NameError at the numbered-item condition, the outer
handler catches it, and analyze_resume returns a result whose error field
holds the NameError message. -/
theorem c1_prose_line_surfaces_error :
    analyzeResume okConfig sampleResumeText (.ok proseResponse)
      = (apiErrorA nameErrRe.msg, true) ∧
    jdget (analyzeResume okConfig sampleResumeText (.ok proseResponse)).1 "error"
      = some (.str nameErrRe.msg) := ⟨rfl, rfl⟩

/-- C2 counterexample: the claim asserts non-empty list fields on every path
including every error branch, but on the too-short input path the returned
result has empty project_recommendations and recommended_courses lists. -/
theorem c2_short_path_has_empty_list :
    (analyzeResume okConfig "abc" (.ok "")).1 = tooShortA ∧
    jdget tooShortA "project_recommendations" = some (.arr []) ∧
    jdget tooShortA "recommended_courses" = some (.arr []) := ⟨rfl, rfl, rfl⟩

/-- C2 (amended): the non-emptiness invariant holds exactly for the result of
the heuristic fallback parser: whenever parse_gemini_response completes, all
four list fields are non-empty and career_roadmap is a non-empty string. -/
theorem c2_fallback_fields_nonempty (text : String) (r : ARec)
    (h : parseGeminiResponseA text = .ok r) :
    r.strengths ≠ [] ∧ r.areas ≠ [] ∧ r.projects ≠ [] ∧ r.courses ≠ [] ∧
    r.roadmap ≠ "" := by
  unfold parseGeminiResponseA at h
  split at h
  · cases h
  · cases h
    exact backfillRec_nonempty _

/-- Witness for c2_fallback_fields_nonempty: the fallback parser completes on
the empty response text and every field of its result is non-empty. -/
theorem c2_fallback_fields_nonempty_witness :
    parseGeminiResponseA "" = .ok
      ⟨["Could not extract strengths from analysis"],
       ["Could not extract areas of improvement from analysis"],
       ["Could not extract project recommendations from analysis"],
       "Could not extract career roadmap from analysis",
       ["Could not extract recommended courses from analysis"]⟩ ∧
    (["Could not extract strengths from analysis"] ≠ ([] : List String)) :=
  ⟨rfl, (c2_fallback_fields_nonempty "" _ rfl).1⟩

/-- C3: on the worked example of the specification, the match-flow
normalize-then-validate pipeline returns score 100, matching_skills
containing exactly Go, empty missing_skills and recommendations, and
category_scores with Technical Skills clamped to 100 and the other four keys
defaulted to 0. -/
theorem c3_normalize_validate_example :
    validateJD (parseGeminiResponseJD c3RawText) = .ok c3Expected := rfl

/-- C5 counterexample: on the input mapping whose score is the float NaN,
validate_result_structure raises ValueError instead of returning a result, so
it is not exception-free on arbitrary float values. -/
theorem c5_nan_raises :
    validateJD (.obj [("score", .float .nan)])
      = .error (.valueError "cannot convert float NaN to integer") ∧
    ∀ m, validateJD (.obj [("score", .float .nan)]) ≠ .ok m := by
  refine ⟨rfl, fun m h => ?_⟩
  rw [show validateJD (.obj [("score", .float .nan)])
      = .error (.valueError "cannot convert float NaN to integer") from rfl] at h
  cases h

/-- C7 counterexample: the claim asserts every numeric score is coerced and
clamped, but on the numeric value float infinity the validator raises
OverflowError instead of producing a clamped score. -/
theorem c7_inf_raises :
    validateJD (.obj [("score", .float .inf)])
      = .error (.overflowError "cannot convert float infinity to integer") ∧
    ∀ m, validateJD (.obj [("score", .float .inf)]) ≠ .ok m := by
  refine ⟨rfl, fun m h => ?_⟩
  rw [show validateJD (.obj [("score", .float .inf)])
      = .error (.overflowError "cannot convert float infinity to integer") from rfl] at h
  cases h

/-- C8 counterexample: the claim asserts the result never contains
raw_analysis when strict parsing succeeds, but on this response the strict
parse succeeds and the parsed JSON itself supplies a raw_analysis key, which
passes through to the returned result. -/
theorem c8_strict_can_contain_raw :
    strictPathA c8RawText
      = .ok (.obj [("raw_analysis", .str "x"),
                   ("strengths", .arr []),
                   ("areas_of_improvement", .arr []),
                   ("project_recommendations", .arr []),
                   ("career_roadmap", .str "No information provided"),
                   ("recommended_courses", .arr [])]) ∧
    jdget (analyzeResume okConfig sampleResumeText (.ok c8RawText)).1 "raw_analysis"
      = some (.str "x") := ⟨rfl, rfl⟩

/-- C8 (amended): whenever the heuristic fallback completes, its result holds
the original raw response text under raw_analysis; and when strict parsing
succeeds on a JSON object, the result contains raw_analysis exactly when the
parsed object itself supplied that key (the back-fill neither adds nor
removes it). -/
theorem c8_raw_analysis_amended (text : String) :
    (∀ r, parseGeminiResponseA text = .ok r →
      jdget (toDictA text r) "raw_analysis" = some (.str text)) ∧
    (∀ kvs d, jsonParse (strictCandidateA text) = some (.obj kvs) →
      backfillA (.obj kvs) requiredFieldsA = .ok d →
      (jdget d "raw_analysis").isSome = (dget kvs "raw_analysis").isSome) := by
  constructor
  · intro r h
    simp [toDictA, jdget, dget]
  · intro kvs d hj hb
    obtain ⟨kvs2, he, hout, hin⟩ := backfillA_obj requiredFieldsA kvs
    rw [he] at hb
    cases hb
    have hnot : "raw_analysis" ∉ requiredFieldsA := by decide
    simp [jdget, hout _ hnot]

/-- Witness for c8_raw_analysis_amended: both branches evaluated at concrete
inputs (the empty response for the fallback branch; c8RawText for the strict
branch). -/
theorem c8_raw_analysis_amended_witness :
    jdget (toDictA ""
      ⟨["Could not extract strengths from analysis"],
       ["Could not extract areas of improvement from analysis"],
       ["Could not extract project recommendations from analysis"],
       "Could not extract career roadmap from analysis",
       ["Could not extract recommended courses from analysis"]⟩) "raw_analysis"
      = some (.str "") ∧
    (jdget (.obj [("raw_analysis", .str "x"),
                  ("strengths", .arr []),
                  ("areas_of_improvement", .arr []),
                  ("project_recommendations", .arr []),
                  ("career_roadmap", .str "No information provided"),
                  ("recommended_courses", .arr [])]) "raw_analysis").isSome
      = (dget [("raw_analysis", .str "x")] "raw_analysis").isSome :=
  ⟨(c8_raw_analysis_amended "").1 _ rfl,
   (c8_raw_analysis_amended c8RawText).2 [("raw_analysis", .str "x")] _ rfl rfl⟩

set_option maxRecDepth 8000 in
/-- C9 counterexample: c9BadText is exactly a valid JSON object already
conformant to the target shape, yet the normalizer does not return it
unchanged: the fence regex matches inside the embedded string value and the
normalizer returns the empty object parsed from that fenced group. -/
theorem c9_fence_inside_string :
    jsonParse c9BadText.toList = some c9BadVal ∧
    ConformantMatch c9BadVal ∧
    parseGeminiResponseJD c9BadText = .obj [] ∧
    JValue.obj [] ≠ c9BadVal := by
  refine ⟨rfl, ?_, rfl, ?_⟩
  · exact ⟨0, [.str "```json \x7b \x7d ```"], [], [], 0, 0, 0, 0, 0, rfl,
      le_refl 0, by norm_num, by norm_num,
      by intro x hx; rw [List.mem_singleton] at hx; exact ⟨_, hx⟩,
      by norm_num, by simp, by norm_num, by simp,
      le_refl 0, by norm_num, le_refl 0, by norm_num, le_refl 0, by norm_num,
      le_refl 0, by norm_num, le_refl 0, by norm_num⟩
  · intro h
    rw [c9BadVal, mkValidated] at h
    cases h

/-- C9 (amended): for a raw response that is exactly a bare conformant JSON
object in which the fence regex finds no match, the normalizer returns the
parsed object unchanged and the validator maps it to the identical result;
moreover the validator is idempotent on every input. -/
theorem c9_conformant_passthrough (t : String) (v : JValue)
    (hc : ConformantMatch v)
    (hf : fenceSearchA t.toList = none)
    (hb1 : startsWithBrace (stripL t.toList) = true)
    (hb2 : endsWithBrace (stripL t.toList) = true)
    (hp : jsonParse (stripL t.toList) = some v) :
    parseGeminiResponseJD t = v ∧
    validateJD v = .ok v ∧
    (∀ d m, validateJD d = .ok m → validateJD m = .ok m) := by
  refine ⟨?_, conformant_validate_id v hc, fun d m h => validateJD_idem d m h⟩
  have hf2 : fenceSearchA t.data = none := hf
  have hb12 : startsWithBrace (stripL t.data) = true := hb1
  have hb22 : endsWithBrace (stripL t.data) = true := hb2
  have hp2 : jsonParse (stripL t.data) = some v := hp
  simp [parseGeminiResponseJD, bareJD, hf2, hb12, hb22, hp2]

set_option maxRecDepth 8000 in
/-- Witness for c9_conformant_passthrough at the concrete conformant response
c9GoodText. -/
theorem c9_conformant_passthrough_witness :
    parseGeminiResponseJD c9GoodText = c9GoodVal ∧
    validateJD c9GoodVal = .ok c9GoodVal ∧
    (∀ d m, validateJD d = .ok m → validateJD m = .ok m) :=
  c9_conformant_passthrough c9GoodText c9GoodVal
    ⟨50, [.str "Python"], [], [], 10, 20, 30, 40, 50, rfl,
      by norm_num, by norm_num, by norm_num,
      by intro x hx; rw [List.mem_singleton] at hx; exact ⟨_, hx⟩,
      by norm_num, by simp, by norm_num, by simp,
      by norm_num, by norm_num, by norm_num, by norm_num, by norm_num, by norm_num,
      by norm_num, by norm_num, by norm_num, by norm_num⟩
    rfl rfl rfl rfl

theorem catShape_error (msg : String) : CatShape (errorResponseJD msg) := by
  refine ⟨[("Technical Skills", .int 0), ("Experience", .int 0), ("Education", .int 0),
    ("Soft Skills", .int 0), ("Industry Knowledge", .int 0)], rfl, rfl, ?_, ?_⟩
  · intro p hp
    simp at hp
    rcases hp with rfl | rfl | rfl | rfl | rfl <;> exact ⟨0, rfl, le_refl 0, by norm_num⟩
  · intro k hk
    apply dget_none_of_not_mem
    simpa [fiveCats] using hk

theorem validateJD_ok_catShape (j m : JValue) (h : validateJD j = .ok m) :
    CatShape m := by
  cases j
  case obj kvs =>
    obtain ⟨s, c1, c2, c3, c4, c5, hs, h1, h2, h3, h4, h5, rfl⟩ :=
      validateJD_obj_ok_inv kvs m h
    refine ⟨[("Technical Skills", .int c1), ("Experience", .int c2), ("Education", .int c3),
      ("Soft Skills", .int c4), ("Industry Knowledge", .int c5)], rfl, rfl, ?_, ?_⟩
    · intro p hp
      simp at hp
      rcases hp with rfl | rfl | rfl | rfl | rfl
      · exact ⟨c1, rfl, (vCat_ok_bounds _ _ _ h1).1, (vCat_ok_bounds _ _ _ h1).2⟩
      · exact ⟨c2, rfl, (vCat_ok_bounds _ _ _ h2).1, (vCat_ok_bounds _ _ _ h2).2⟩
      · exact ⟨c3, rfl, (vCat_ok_bounds _ _ _ h3).1, (vCat_ok_bounds _ _ _ h3).2⟩
      · exact ⟨c4, rfl, (vCat_ok_bounds _ _ _ h4).1, (vCat_ok_bounds _ _ _ h4).2⟩
      · exact ⟨c5, rfl, (vCat_ok_bounds _ _ _ h5).1, (vCat_ok_bounds _ _ _ h5).2⟩
    · intro k hk
      apply dget_none_of_not_mem
      simpa [fiveCats] using hk
  all_goals simp [validateJD] at h

/-- C4: on every configuration, input pair and model outcome, the result of
compare_resume_jd carries a category_scores dict with exactly the five fixed
keys in order, every value an integer between 0 and 100 (so any other key
supplied by the model is absent); and in the validator a five-key entry not
supplied by the model defaults to 0. -/
theorem c4_category_scores_invariant :
    ∀ (cfg : GeminiConfig) (resumeText jdText : String) (call : Except String String),
      CatShape (compareResumeJd cfg resumeText jdText call).1 ∧
      (∀ kvs cats m k, validateJD (.obj kvs) = .ok m →
        dget kvs "category_scores" = some (.obj cats) →
        k ∈ fiveCats → dget cats k = none →
        ∃ cs, jdget m "category_scores" = some (.obj cs) ∧ dget cs k = some (.int 0)) := by
  intro cfg rt jt call
  constructor
  · unfold compareResumeJd
    split
    · exact catShape_error _
    · split
      · exact catShape_error _
      · split
        · exact catShape_error _
        · split
          · exact catShape_error _
          · split
            · exact catShape_error _
            · split
              · next d hd => exact validateJD_ok_catShape _ _ hd
              · exact catShape_error _
  · intro kvs cats m k hval hcats hk hnone
    obtain ⟨s, c1, c2, c3, c4, c5, hs, h1, h2, h3, h4, h5, rfl⟩ :=
      validateJD_obj_ok_inv kvs m hval
    refine ⟨[("Technical Skills", .int c1), ("Experience", .int c2), ("Education", .int c3),
      ("Soft Skills", .int c4), ("Industry Knowledge", .int c5)], rfl, ?_⟩
    simp [fiveCats] at hk
    rcases hk with rfl | rfl | rfl | rfl | rfl
    · simp only [vCat, hcats, hnone] at h1
      cases h1
      rfl
    · simp only [vCat, hcats, hnone] at h2
      cases h2
      rfl
    · simp only [vCat, hcats, hnone] at h3
      cases h3
      rfl
    · simp only [vCat, hcats, hnone] at h4
      cases h4
      rfl
    · simp only [vCat, hcats, hnone] at h5
      cases h5
      rfl

/-- Witness for c4_category_scores_invariant: the invariant at a concrete
configuration, texts and response, and the default-to-0 branch at a concrete
mapping lacking the Experience key. -/
theorem c4_category_scores_invariant_witness :
    CatShape (compareResumeJd okConfig sampleResumeText sampleJdText (.ok "gibberish")).1 ∧
    (∃ cs, jdget (mkValidated 0 [] [] [] 0 0 0 0 0) "category_scores" = some (.obj cs) ∧
      dget cs "Experience" = some (.int 0)) :=
  ⟨(c4_category_scores_invariant okConfig sampleResumeText sampleJdText (.ok "gibberish")).1,
   (c4_category_scores_invariant okConfig sampleResumeText sampleJdText (.ok "gibberish")).2
     [("category_scores", JValue.obj [])] [] (mkValidated 0 [] [] [] 0 0 0 0 0) "Experience"
     rfl rfl (by simp [fiveCats]) rfl⟩

theorem pyToInt_ok_of_noBad (v : JValue) (h : noBadFloat v) :
    ∃ o, pyToInt v = .ok o := by
  cases v
  case float f =>
    cases f
    case fin q => exact ⟨_, rfl⟩
    case nan => exact absurd rfl h.1
    case inf => exact absurd rfl h.2.1
    case ninf => exact absurd rfl h.2.2
  all_goals exact ⟨_, rfl⟩

theorem vScore_ok_of (kvs : List (String × JValue))
    (hscore : ∀ v, dget kvs "score" = some v → noBadFloat v) :
    ∃ s, vScore kvs = .ok s := by
  rcases hd : dget kvs "score" with _ | v
  · exact ⟨0, by simp [vScore, hd]⟩
  · obtain ⟨o, ho⟩ := pyToInt_ok_of_noBad v (hscore v hd)
    cases o with
    | none => exact ⟨0, by simp [vScore, hd, ho]⟩
    | some n => exact ⟨clampI n, by simp [vScore, hd, ho]⟩

theorem vCat_ok_of (kvs : List (String × JValue)) (k : String)
    (hcats : ∀ cats v, dget kvs "category_scores" = some (.obj cats) →
      dget cats k = some v → noBadFloat v) :
    ∃ c, vCat kvs k = .ok c := by
  rcases hd : dget kvs "category_scores" with _ | w
  · exact ⟨0, by simp [vCat, hd]⟩
  · cases w
    case obj cats =>
      rcases hc : dget cats k with _ | v
      · exact ⟨0, by simp [vCat, hd, hc]⟩
      · obtain ⟨o, ho⟩ := pyToInt_ok_of_noBad v (hcats cats v hd hc)
        cases o with
        | none => exact ⟨0, by simp [vCat, hd, hc, ho]⟩
        | some n => exact ⟨clampI n, by simp [vCat, hd, hc, ho]⟩
    all_goals exact ⟨0, by simp [vCat, hd]⟩

/-- C5 (amended): on every input mapping in which neither the score value nor
the value at any of the five fixed category keys is NaN or an infinity,
validate_result_structure raises no exception and returns a fully-shaped
MatchResult (the five top-level keys in order, with the five category keys
inside).  Values under other category keys are unconstrained, because the
validator loop only ever reads the five fixed keys; NaN or infinite floats at
the read positions instead make int() raise (see the counterexample). -/
theorem c5_no_raise_without_special_floats (kvs : List (String × JValue))
    (hscore : ∀ v, dget kvs "score" = some v → noBadFloat v)
    (hcats : ∀ cats k v, k ∈ fiveCats →
      dget kvs "category_scores" = some (.obj cats) →
      dget cats k = some v → noBadFloat v) :
    ∃ kvs2, validateJD (.obj kvs) = .ok (.obj kvs2) ∧
      kvs2.map Prod.fst = matchKeys ∧
      ∃ cs, dget kvs2 "category_scores" = some (.obj cs) ∧ cs.map Prod.fst = fiveCats := by
  obtain ⟨s, hs⟩ := vScore_ok_of kvs hscore
  obtain ⟨c1, h1⟩ := vCat_ok_of kvs "Technical Skills"
    (fun cats v hd hc => hcats cats _ v (by simp [fiveCats]) hd hc)
  obtain ⟨c2, h2⟩ := vCat_ok_of kvs "Experience"
    (fun cats v hd hc => hcats cats _ v (by simp [fiveCats]) hd hc)
  obtain ⟨c3, h3⟩ := vCat_ok_of kvs "Education"
    (fun cats v hd hc => hcats cats _ v (by simp [fiveCats]) hd hc)
  obtain ⟨c4, h4⟩ := vCat_ok_of kvs "Soft Skills"
    (fun cats v hd hc => hcats cats _ v (by simp [fiveCats]) hd hc)
  obtain ⟨c5, h5⟩ := vCat_ok_of kvs "Industry Knowledge"
    (fun cats v hd hc => hcats cats _ v (by simp [fiveCats]) hd hc)
  exact ⟨_, validateJD_obj_eq kvs s c1 c2 c3 c4 c5 hs h1 h2 h3 h4 h5, rfl, _, rfl, rfl⟩

/-- Witness for c5_no_raise_without_special_floats at a concrete mapping
whose category_scores holds a NaN under an unknown key (never read by the
validator) alongside a finite value under a fixed key. -/
theorem c5_no_raise_witness :
    ∃ kvs2, validateJD (.obj [("category_scores",
        .obj [("Bogus", .float .nan), ("Technical Skills", .int 5)])]) = .ok (.obj kvs2) ∧
      kvs2.map Prod.fst = matchKeys ∧
      ∃ cs, dget kvs2 "category_scores" = some (.obj cs) ∧ cs.map Prod.fst = fiveCats :=
  c5_no_raise_without_special_floats
    [("category_scores", .obj [("Bogus", .float .nan), ("Technical Skills", .int 5)])]
    (by
      intro v hv
      simp [dget] at hv)
    (by
      intro cats k v hk hd hc
      cases hd
      simp [fiveCats] at hk
      rcases hk with rfl | rfl | rfl | rfl | rfl
      · cases hc
        exact ⟨by simp, by simp, by simp⟩
      · cases hc
      · cases hc
      · cases hc
      · cases hc)

/-- C6: with the credential configured (and, in the analysis flow, model
construction succeeding), an input shorter than 50 characters makes the flow
return immediately with the too-short message in the error field and every
other field at its defaulted state, and generate_content is never invoked;
likewise in the match flow when either text is shorter than 50 characters. -/
theorem c6_short_input_short_circuits (resumeText jdText : String)
    (call : Except String String) (mc : Except String Unit) :
    (resumeText.length < 50 →
      analyzeResume okConfig resumeText call = (tooShortA, false) ∧
      jdget tooShortA "error" = some (.str tooShortMsgA)) ∧
    (resumeText.length < 50 →
      compareResumeJd ⟨true, mc⟩ resumeText jdText call
        = (errorResponseJD tooShortResumeMsg, false)) ∧
    (50 ≤ resumeText.length → jdText.length < 50 →
      compareResumeJd ⟨true, mc⟩ resumeText jdText call
        = (errorResponseJD tooShortJdMsg, false)) := by
  refine ⟨fun h => ⟨?_, rfl⟩, fun h => ?_, fun h1 h2 => ?_⟩
  · unfold analyzeResume okConfig
    simp [h]
  · unfold compareResumeJd
    simp [h]
  · unfold compareResumeJd
    simp [h2, Nat.not_lt.mpr h1]

/-- Witness for c6_short_input_short_circuits: both flows at concrete short
inputs (and the match flow with a short second text). -/
theorem c6_short_input_witness :
    (analyzeResume okConfig "ab" (.ok "") = (tooShortA, false) ∧
      jdget tooShortA "error" = some (.str tooShortMsgA)) ∧
    compareResumeJd ⟨true, .ok ()⟩ "ab" sampleJdText (.ok "")
      = (errorResponseJD tooShortResumeMsg, false) ∧
    compareResumeJd ⟨true, .ok ()⟩ sampleResumeText "ab" (.ok "")
      = (errorResponseJD tooShortJdMsg, false) :=
  ⟨(c6_short_input_short_circuits "ab" sampleJdText (.ok "") (.ok ())).1 (by decide),
   (c6_short_input_short_circuits "ab" sampleJdText (.ok "") (.ok ())).2.1 (by decide),
   (c6_short_input_short_circuits sampleResumeText "ab" (.ok "") (.ok ())).2.2
     (by decide) (by decide)⟩

/-- C7 (amended): for finite numeric score values (int, bool, finite float)
the validator coerces with int() and clamps into the range 0 to 100 (values
below 0 become 0, above 100 become 100, in-range values are unchanged); an
absent or non-numeric score yields 0; NaN and infinite floats instead make
int() raise (see the counterexample). -/
theorem c7_score_clamping (kvs : List (String × JValue)) (m : JValue)
    (h : validateJD (.obj kvs) = .ok m) :
    (dget kvs "score" = none → jdget m "score" = some (.int 0)) ∧
    (∀ n : Int, dget kvs "score" = some (.int n) →
      jdget m "score" = some (.int (clampI n))) ∧
    (∀ b, dget kvs "score" = some (.bool b) →
      jdget m "score" = some (.int (clampI (if b then 1 else 0)))) ∧
    (∀ q, dget kvs "score" = some (.float (.fin q)) →
      jdget m "score" = some (.int (clampI (ratTruncZ q)))) ∧
    (∀ v, dget kvs "score" = some v → pyToInt v = .ok none →
      jdget m "score" = some (.int 0)) ∧
    (∀ n : Int, clampI n = if n < 0 then 0 else if 100 < n then 100 else n) := by
  obtain ⟨s, c1, c2, c3, c4, c5, hs, h1, h2, h3, h4, h5, rfl⟩ :=
    validateJD_obj_ok_inv kvs m h
  have hms : ∀ z : Int, s = z →
      jdget (mkValidated s (vList kvs "matching_skills") (vList kvs "missing_skills")
        (vList kvs "recommendations") c1 c2 c3 c4 c5) "score" = some (.int z) := by
    intro z hz
    subst hz
    rfl
  refine ⟨?_, ?_, ?_, ?_, ?_, ?_⟩
  · intro hd
    simp only [vScore, hd] at hs
    cases hs
    exact hms _ rfl
  · intro n hd
    simp only [vScore, hd, pyToInt] at hs
    cases hs
    exact hms _ rfl
  · intro b hd
    simp only [vScore, hd, pyToInt] at hs
    cases hs
    exact hms _ rfl
  · intro q hd
    simp only [vScore, hd, pyToInt] at hs
    cases hs
    exact hms _ rfl
  · intro v hd hpt
    simp only [vScore, hd, hpt] at hs
    cases hs
    exact hms _ rfl
  · intro n
    rcases lt_or_le n 0 with hneg | hpos
    · rw [if_pos hneg]
      unfold clampI
      rw [max_eq_left hneg.le, min_eq_right (by norm_num : (0 : Int) ≤ 100)]
    · rw [if_neg (not_lt.mpr hpos)]
      rcases lt_or_le 100 n with hbig | hsmall
      · rw [if_pos hbig]
        unfold clampI
        rw [max_eq_right hpos, min_eq_left hbig.le]
      · rw [if_neg (not_lt.mpr hsmall)]
        exact clampI_of_mem n hpos hsmall

/-- Witness for c7_score_clamping: score 150 is clamped (to clampI 150) on a
concrete mapping. -/
theorem c7_score_clamping_witness :
    jdget (mkValidated 100 [] [] [] 0 0 0 0 0) "score" = some (.int (clampI 150)) :=
  (c7_score_clamping [("score", .int 150)] (mkValidated 100 [] [] [] 0 0 0 0 0) rfl).2.1
    150 rfl

/-- C10: when the strict candidate of the analyzer parses to a JSON object,
analyze_resume returns that mapping itself with only the five required fields
back-filled: keys outside the required five pass through with their exact
values (no clamping, coercion or truncation), required fields already present
keep their values, and missing required fields become the empty list (the
placeholder string for career_roadmap). -/
theorem c10_strict_passthrough (resumeText rawText : String)
    (kvs : List (String × JValue))
    (hlen : 50 ≤ resumeText.length)
    (hp : jsonParse (strictCandidateA rawText) = some (.obj kvs)) :
    ∃ kvs2, analyzeResume okConfig resumeText (.ok rawText) = (.obj kvs2, true) ∧
      (∀ k, k ∉ requiredFieldsA → dget kvs2 k = dget kvs k) ∧
      (∀ k, k ∈ requiredFieldsA →
        dget kvs2 k = some ((dget kvs k).getD (backfillDefault k))) := by
  obtain ⟨kvs2, he, hout, hin⟩ := backfillA_obj requiredFieldsA kvs
  refine ⟨kvs2, ?_, hout, hin⟩
  unfold analyzeResume okConfig
  simp [Nat.not_lt.mpr hlen, strictPathA, hp, he]

/-- Witness for c10_strict_passthrough at the concrete response c10RawText
(an object with an extra bonus key and only strengths among the required
fields). -/
theorem c10_strict_passthrough_witness :
    ∃ kvs2, analyzeResume okConfig sampleResumeText (.ok c10RawText) = (.obj kvs2, true) ∧
      (∀ k, k ∉ requiredFieldsA →
        dget kvs2 k = dget [("bonus", JValue.int 7), ("strengths", JValue.arr [.str "a"])] k) ∧
      (∀ k, k ∈ requiredFieldsA →
        dget kvs2 k = some ((dget [("bonus", JValue.int 7),
          ("strengths", JValue.arr [.str "a"])] k).getD (backfillDefault k))) :=
  c10_strict_passthrough sampleResumeText c10RawText
    [("bonus", JValue.int 7), ("strengths", JValue.arr [.str "a"])] (by decide) rfl

end ResumeAPI
